import Mathlib

/-!
Shallow embedding of the option_signals repository core:
  * tools/load_mx/matrix.py          (BaseMatrix: arithmetic, delegation, signature, pickling)
  * tools/load_mx/matrix_polygon.py  (PolygonDataMatrix: time-grid generation, point-in-time aligner)
  * tools/set_runtime.py             (load_store_from_cache decorator)

Cells of the tabular engine are modelled by an inductive `Cell` covering finite
values (as rationals), NaN (the missing marker) and the two infinities; the
engine (pandas/numpy) is declared an external collaborator by the spec, so its
elementwise primitives are reproduced here only as far as the verified claims
exercise them, with the IEEE-754 conventions for infinities and NaN.
-/

namespace OptionSignals

/-- Model of a float cell of the tabular engine: a finite value, the missing
marker NaN, or one of the two infinities. Boolean cells (results of elementwise
comparisons) are modelled numerically (True = 1, False = 0). -/
inductive Cell where
  | val : ℚ → Cell
  | nan : Cell
  | inf : Cell
  | ninf : Cell
deriving DecidableEq

/-- A 2D table of cells, row major (rows = time grid, columns = universe). -/
abbrev Table := List (List Cell)

/-- Elementwise replacement of np.inf and -np.inf by np.nan
(the `.replace([np.inf, -np.inf], np.nan)` idiom of matrix.py). -/
def replaceInfCell : Cell → Cell
  | .inf => .nan
  | .ninf => .nan
  | c => c

/-- Table-wide infinity-to-missing collapse. -/
def replaceInfTable (t : Table) : Table := t.map (fun row => row.map replaceInfCell)

/-- Elementwise `fillna(0)` of the tabular engine. -/
def fillnaCell (c : Cell) : Cell := if c = Cell.nan then Cell.val 0 else c

/-- Map a cell function over a whole table. -/
def mapTable (f : Cell → Cell) (t : Table) : Table := t.map (fun row => row.map f)

/-- Elementwise combination of two same-shaped tables. -/
def elementwise (op : Cell → Cell → Cell) (a b : Table) : Table :=
  List.zipWith (List.zipWith op) a b

/-- A cell is not an infinity. -/
def noInfCell : Cell → Bool
  | .inf => false
  | .ninf => false
  | _ => true

/-- A table holds no infinite cell. -/
def noInfTable (t : Table) : Bool := t.all (fun row => row.all noInfCell)

/-- Shape of a table, as pandas `df.shape`: (row count, column count). -/
def tableShape (t : Table) : Nat × Nat := (t.length, ((t.head?).map List.length).getD 0)

/-- All-missing table, as `pd.DataFrame(np.nan, index=time_list, columns=universe)`. -/
def allNanTable (rows cols : Nat) : Table :=
  List.replicate rows (List.replicate cols Cell.nan)

/-- Debug rendering of a cell used when serializing table bytes to a string. -/
def cellStr : Cell → String
  | .val q => "v" ++ toString q
  | .nan => "nan"
  | .inf => "inf"
  | .ninf => "ninf"

/-- The raw byte content of a table, `df.to_numpy().tobytes()`: a function of the
cell values only (row-major, no index or column labels), rendered as a string. -/
def tableBytes (t : Table) : String :=
  String.intercalate "," ((t.map (fun row => row.map cellStr)).map (String.intercalate ",") )

/-- The external cryptographic digest (`hashlib.sha256(...).hexdigest()`).
External collaborator: modelled as the identity encoding of its input; every
claim about signatures and fingerprints needs only that the digest is a
deterministic function of the input bytes. -/
def sha256Hex (s : String) : String := s

/-- BaseMatrix of tools/load_mx/matrix.py: attribute dictionary of an instance. -/
structure BaseMatrix where
  matrix_type : String
  universeIds : List String  -- the `universe` attribute (Lean reserves that word)
  start_time : String
  end_time : String
  time_granularity : String
  matrix_cache_folder : String
  time_list : List Nat
  underlying_df : Table
  unique_str : String
deriving DecidableEq

/-- `BaseMatrix.__init__` (matrix.py lines 32-47): stores the metadata, builds an
all-NaN table over (time_list × universe), and fixes
`unique_str = '_'.join([matrix_type, start_time, end_time])` with
`matrix_type = 'BaseMatrix'` (the field is assigned by this constructor, which
overwrites any value a subclass set beforehand). -/
def BaseMatrix.init (universeIds : List String)
    (start_time end_time time_granularity matrix_cache_folder : String)
    (time_list : List Nat) : BaseMatrix :=
  { matrix_type := "BaseMatrix"
    universeIds := universeIds
    start_time := start_time
    end_time := end_time
    time_granularity := time_granularity
    matrix_cache_folder := matrix_cache_folder
    time_list := time_list
    underlying_df := allNanTable time_list.length universeIds.length
    unique_str := String.intercalate "_" ["BaseMatrix", start_time, end_time] }

/-- Assignment to the `underlying_df` property (its setter replaces the table and
nothing else). -/
def BaseMatrix.setDf (m : BaseMatrix) (df : Table) : BaseMatrix :=
  { m with underlying_df := df }

/-- `BaseMatrix.update_signature` (matrix.py lines 114-118): recomputes
`sha256(unique_str.encode() + underlying_df.to_numpy().tobytes()).hexdigest()`
from the current table on every call. -/
def BaseMatrix.update_signature (m : BaseMatrix) : String :=
  sha256Hex (m.unique_str ++ tableBytes m.underlying_df)

/-- IEEE-style elementwise addition on cells (external engine primitive). -/
def cellAdd : Cell → Cell → Cell
  | .nan, _ => .nan
  | _, .nan => .nan
  | .val a, .val b => .val (a + b)
  | .inf, .ninf => .nan
  | .ninf, .inf => .nan
  | .inf, _ => .inf
  | _, .inf => .inf
  | _, _ => .ninf

/-- IEEE-style elementwise subtraction on cells (external engine primitive). -/
def cellSub : Cell → Cell → Cell
  | .nan, _ => .nan
  | _, .nan => .nan
  | .val a, .val b => .val (a - b)
  | .inf, .inf => .nan
  | .ninf, .ninf => .nan
  | .inf, _ => .inf
  | .ninf, _ => .ninf
  | _, .inf => .ninf
  | _, _ => .inf

/-- IEEE-style elementwise multiplication on cells (external engine primitive). -/
def cellMul : Cell → Cell → Cell
  | .nan, _ => .nan
  | _, .nan => .nan
  | .val a, .val b => .val (a * b)
  | .inf, .val b => if b = 0 then .nan else if 0 < b then .inf else .ninf
  | .ninf, .val b => if b = 0 then .nan else if 0 < b then .ninf else .inf
  | .val a, .inf => if a = 0 then .nan else if 0 < a then .inf else .ninf
  | .val a, .ninf => if a = 0 then .nan else if 0 < a then .ninf else .inf
  | .inf, .inf => .inf
  | .inf, .ninf => .ninf
  | .ninf, .inf => .ninf
  | .ninf, .ninf => .inf

/-- IEEE-style elementwise true division on cells (external engine primitive):
a finite nonzero numerator over zero gives a signed infinity, 0/0 gives NaN. -/
def cellDiv : Cell → Cell → Cell
  | .nan, _ => .nan
  | .val a, .val b =>
      if b = 0 then (if a = 0 then .nan else if 0 < a then .inf else .ninf)
      else .val (a / b)
  | .val _, .inf => .val 0
  | .val _, .ninf => .val 0
  | .val _, .nan => .nan
  | .inf, .val b => if b < 0 then .ninf else .inf
  | .ninf, .val b => if b < 0 then .inf else .ninf
  | _, _ => .nan

/-- Elementwise floor division on cells: true division then floor on finite
values (external engine primitive). -/
def cellFloordiv (a b : Cell) : Cell :=
  match cellDiv a b with
  | .val q => .val ((⌊q⌋ : ℤ) : ℚ)
  | c => c

/-- Elementwise modulo on cells, Python semantics `a - b*floor(a/b)`; a zero or
infinite divisor is approximated as NaN (external engine primitive, not
exercised with infinite operands by any claim). -/
def cellMod : Cell → Cell → Cell
  | .nan, _ => .nan
  | _, .nan => .nan
  | .val a, .val b => if b = 0 then .nan else .val (a - b * ((⌊a / b⌋ : ℤ) : ℚ))
  | _, _ => .nan

/-- Elementwise power on cells for integer exponents; a fractional exponent is
approximated as NaN (external engine primitive, not exercised with fractional
or infinite operands by any claim). -/
def cellPow : Cell → Cell → Cell
  | .nan, _ => .nan
  | _, .nan => .nan
  | .val a, .val b =>
      if b.den = 1 then
        if 0 ≤ b.num then .val (a ^ b.num.toNat)
        else if a = 0 then .inf
        else .val (a ^ b.num)
      else .nan
  | _, _ => .nan

/-- Numeric encoding of an elementwise-comparison result cell (True = 1). -/
def boolCell (b : Bool) : Cell := .val (if b then 1 else 0)

/-- Elementwise equality test on cells: NaN compares unequal to everything. -/
def cellEqB : Cell → Cell → Bool
  | .nan, _ => false
  | _, .nan => false
  | .val a, .val b => a == b
  | .inf, .inf => true
  | .ninf, .ninf => true
  | _, _ => false

/-- Elementwise strict order on cells: -inf below finite values below inf, and
every comparison against NaN is false. -/
def cellLtB : Cell → Cell → Bool
  | .nan, _ => false
  | _, .nan => false
  | .val a, .val b => a < b
  | .ninf, .ninf => false
  | .ninf, _ => true
  | _, .ninf => false
  | .inf, .inf => false
  | _, .inf => true
  | .inf, _ => false

/-- The comparison operators as cell functions returning numeric booleans. -/
def cellEq (a b : Cell) : Cell := boolCell (cellEqB a b)

/-- Elementwise inequality: the negation of elementwise equality. -/
def cellNe (a b : Cell) : Cell := boolCell (!cellEqB a b)

/-- Elementwise strictly-less-than. -/
def cellLt (a b : Cell) : Cell := boolCell (cellLtB a b)

/-- Elementwise less-or-equal. -/
def cellLe (a b : Cell) : Cell := boolCell (cellLtB a b || cellEqB a b)

/-- Elementwise strictly-greater-than. -/
def cellGt (a b : Cell) : Cell := boolCell (cellLtB b a)

/-- Elementwise greater-or-equal. -/
def cellGe (a b : Cell) : Cell := boolCell (cellLtB b a || cellEqB a b)

/-- The right operand of a binary BaseMatrix operation: another Matrix, a raw
table (DataFrame), a time-axis vector (Series or 1-D ndarray), or a scalar. -/
inductive Operand where
  | matrix (m : BaseMatrix)
  | table (t : Table)
  | vector (v : List Cell)
  | scalar (c : Cell)
deriving DecidableEq

/-- Whether the operand is a scalar (an `int` or `float` in the source). -/
def Operand.isScalarArg : Operand → Bool
  | .scalar _ => true
  | _ => false

/-- Tiling of a time-axis vector across all columns,
`np.tile(other.values, (ncols, 1)).T` (matrix.py lines 151-158). -/
def broadcastVector (v : List Cell) (cols : Nat) : Table :=
  v.map (fun c => List.replicate cols c)

/-- `BaseMatrix._apply_op` (matrix.py lines 148-162): unwrap a Matrix operand,
tile a row-count-matching vector across the columns, apply the elementwise
operation, collapse ±infinity to NaN, and wrap the result into a new BaseMatrix
carrying the receiver's metadata. A vector whose length does not match the row
count falls through to the engine's label alignment, which pairs its integer
labels against the column labels and yields missing cells (approximated here as
an all-NaN table of the receiver's shape; no claim exercises this branch). -/
def applyOp (self : BaseMatrix) (other : Operand) (op : Cell → Cell → Cell) : BaseMatrix :=
  let df := self.underlying_df
  let raw : Table :=
    match other with
    | .matrix m => elementwise op df m.underlying_df
    | .table t => elementwise op df t
    | .vector v =>
        if v.length = df.length then elementwise op df (broadcastVector v (tableShape df).2)
        else mapTable (fun _ => Cell.nan) df
    | .scalar c => mapTable (fun x => op x c) df
  (BaseMatrix.init self.universeIds self.start_time self.end_time
      self.time_granularity self.matrix_cache_folder self.time_list).setDf
    (replaceInfTable raw)

/-- `__add__`. -/
def BaseMatrix.add (self : BaseMatrix) (other : Operand) : BaseMatrix := applyOp self other cellAdd

/-- `__sub__`. -/
def BaseMatrix.sub (self : BaseMatrix) (other : Operand) : BaseMatrix := applyOp self other cellSub

/-- `__mul__`. -/
def BaseMatrix.mul (self : BaseMatrix) (other : Operand) : BaseMatrix := applyOp self other cellMul

/-- `__floordiv__`. -/
def BaseMatrix.floordiv (self : BaseMatrix) (other : Operand) : BaseMatrix := applyOp self other cellFloordiv

/-- `__mod__`. -/
def BaseMatrix.mod (self : BaseMatrix) (other : Operand) : BaseMatrix := applyOp self other cellMod

/-- `__pow__`. -/
def BaseMatrix.pow (self : BaseMatrix) (other : Operand) : BaseMatrix := applyOp self other cellPow

/-- `__eq__` (elementwise, boolean-valued result). -/
def BaseMatrix.eqOp (self : BaseMatrix) (other : Operand) : BaseMatrix := applyOp self other cellEq

/-- `__ne__`. -/
def BaseMatrix.neOp (self : BaseMatrix) (other : Operand) : BaseMatrix := applyOp self other cellNe

/-- `__lt__`. -/
def BaseMatrix.ltOp (self : BaseMatrix) (other : Operand) : BaseMatrix := applyOp self other cellLt

/-- `__le__`. -/
def BaseMatrix.leOp (self : BaseMatrix) (other : Operand) : BaseMatrix := applyOp self other cellLe

/-- `__gt__`. -/
def BaseMatrix.gtOp (self : BaseMatrix) (other : Operand) : BaseMatrix := applyOp self other cellGt

/-- `__ge__`. -/
def BaseMatrix.geOp (self : BaseMatrix) (other : Operand) : BaseMatrix := applyOp self other cellGe

/-- `__radd__` (matrix.py line 181): `self._apply_op(other, operator.add)`. -/
def BaseMatrix.radd (self : BaseMatrix) (other : Operand) : BaseMatrix := applyOp self other cellAdd

/-- `__rsub__` (matrix.py line 182): `self._apply_op(other, operator.sub)` — the
receiver stays the left operand of the subtraction. -/
def BaseMatrix.rsub (self : BaseMatrix) (other : Operand) : BaseMatrix := applyOp self other cellSub

/-- `__rmul__` (matrix.py line 183): delegates to `__mul__`. -/
def BaseMatrix.rmul (self : BaseMatrix) (other : Operand) : BaseMatrix := self.mul other

/-- `__rtruediv__` (matrix.py line 184): `self._apply_op(other, operator.truediv)`
— the receiver's table is the dividend. -/
def BaseMatrix.rtruediv (self : BaseMatrix) (other : Operand) : BaseMatrix := applyOp self other cellDiv

/-- `__rfloordiv__` (matrix.py line 185). -/
def BaseMatrix.rfloordiv (self : BaseMatrix) (other : Operand) : BaseMatrix := applyOp self other cellFloordiv

/-- `__rmod__` (matrix.py line 186). -/
def BaseMatrix.rmod (self : BaseMatrix) (other : Operand) : BaseMatrix := applyOp self other cellMod

/-- `__rpow__` (matrix.py line 187). -/
def BaseMatrix.rpow (self : BaseMatrix) (other : Operand) : BaseMatrix := applyOp self other cellPow

/-- Errors raised by the matrix layer. -/
inductive MxError where
  | valueError (msg : String)
deriving DecidableEq

/-- `BaseMatrix.__truediv__` (matrix.py lines 205-231). A Matrix or DataFrame
divisor is shape-checked, its NaNs are filled with 0, and infinities of the
quotient are collapsed to NaN; an `int`/`float` scalar divisor divides the table
directly with no infinity collapse; any other operand falls through to
`_apply_op` with `operator.truediv`. -/
def BaseMatrix.truediv (self : BaseMatrix) (other : Operand) : Except MxError BaseMatrix :=
  let base := BaseMatrix.init self.universeIds self.start_time self.end_time
      self.time_granularity self.matrix_cache_folder self.time_list
  match other with
  | .matrix o =>
      if tableShape self.underlying_df ≠ tableShape o.underlying_df then
        .error (.valueError "DataFrames must have the same shape for element-wise division.")
      else
        .ok (base.setDf (replaceInfTable
          (elementwise cellDiv self.underlying_df (mapTable fillnaCell o.underlying_df))))
  | .table t =>
      if tableShape self.underlying_df ≠ tableShape t then
        .error (.valueError "DataFrames must have the same shape for element-wise division.")
      else
        .ok (base.setDf (replaceInfTable
          (elementwise cellDiv self.underlying_df (mapTable fillnaCell t))))
  | .scalar c =>
      .ok (base.setDf (mapTable (fun x => cellDiv x c) self.underlying_df))
  | .vector v =>
      .ok (applyOp self (.vector v) cellDiv)

/-- The pickled state of a BaseMatrix: a copy of its attribute dictionary
(matrix.py lines 134-136, `__getstate__` returns `self.__dict__.copy()`). -/
structure MatrixState where
  matrix_type : String
  universeIds : List String
  start_time : String
  end_time : String
  time_granularity : String
  matrix_cache_folder : String
  time_list : List Nat
  underlying_df : Table
  unique_str : String
deriving DecidableEq

/-- `BaseMatrix.__getstate__`: the attribute dictionary, copied. -/
def BaseMatrix.getstate (m : BaseMatrix) : MatrixState :=
  ⟨m.matrix_type, m.universeIds, m.start_time, m.end_time, m.time_granularity,
   m.matrix_cache_folder, m.time_list, m.underlying_df, m.unique_str⟩

/-- `BaseMatrix.__setstate__` (matrix.py lines 138-140): restores every attribute
from the pickled dictionary. -/
def BaseMatrix.setstate (s : MatrixState) : BaseMatrix :=
  ⟨s.matrix_type, s.universeIds, s.start_time, s.end_time, s.time_granularity,
   s.matrix_cache_folder, s.time_list, s.underlying_df, s.unique_str⟩

/-- The `granularity_map` of `PolygonDataMatrix._generate_time_list`
(matrix_polygon.py lines 52-58), with each pandas frequency string rendered as
its step size in minutes. -/
def granularity_map : List (String × Nat) :=
  [("1h", 60), ("5m", 5), ("1m", 1), ("4h", 240), ("1d", 1440)]

/-- Lookup of a granularity's step, `none` when the granularity is unsupported. -/
def granStep (g : String) : Option Nat :=
  (granularity_map.find? (fun p => p.1 == g)).map (fun p => p.2)

/-- `pd.date_range(start, end, freq, inclusive both)` over timestamps measured
in minutes: the arithmetic progression from `s` in steps of `step` while
`≤ e`; an inverted range yields the empty index. -/
def dateRange (s e step : Nat) : List Nat :=
  if e < s then []
  else (List.range ((e - s) / step + 1)).map (fun i => s + i * step)

/-- `PolygonDataMatrix._generate_time_list` (matrix_polygon.py lines 40-69):
raises ValueError for an unsupported granularity, otherwise builds the date
range between the bounds at the granularity's frequency. The 'YYYY-MM-DD' bound
strings are modelled by the day numbers they denote (converted to minutes). -/
def generate_time_list (startDay endDay : Nat) (g : String) : Except MxError (List Nat) :=
  match granStep g with
  | none => .error (.valueError ("Unsupported time_granularity: " ++ g))
  | some step => .ok (dateRange (startDay * 1440) (endDay * 1440) step)

/-- `PolygonDataMatrix.__init__` (matrix_polygon.py lines 17-38): generates the
time grid (the only construction-time validation), then runs
`BaseMatrix.__init__` with universe `["I:SPX"]`. The external OHLC dataloader
construction is out of scope and modelled as succeeding. -/
def PolygonDataMatrix.init (startDay endDay : Nat) (g cacheFolder _dataFolder : String) :
    Except MxError BaseMatrix := do
  let tl ← generate_time_list startDay endDay g
  pure (BaseMatrix.init ["I:SPX"] (toString startDay) (toString endDay) g cacheFolder tl)

/-- Insertion of an observation into a list sorted ascending by timestamp
(models `DataFrame.sort_values('timestamp')` on the observation frame). -/
def sortedInsertObs (p : Nat × ℚ) : List (Nat × ℚ) → List (Nat × ℚ)
  | [] => [p]
  | q :: rest => if p.1 < q.1 then p :: q :: rest else q :: sortedInsertObs p rest

/-- Sorting of the observation series by timestamp. -/
def sortObs (l : List (Nat × ℚ)) : List (Nat × ℚ) := l.foldr sortedInsertObs []

/-- Insertion into a sorted timestamp list (models
`DataFrame.sort_values('timestamp')` on the grid frame). -/
def sortedInsertNat (x : Nat) : List Nat → List Nat
  | [] => [x]
  | y :: rest => if x < y then x :: y :: rest else y :: sortedInsertNat x rest

/-- Sorting of the time grid. -/
def sortNat (l : List Nat) : List Nat := l.foldr sortedInsertNat []

/-- The backward as-of match of `pd.merge_asof(..., direction='backward',
allow_exact_matches=True)` for one grid timestamp over a series sorted
ascending by timestamp: the last observation with timestamp at or before `t`. -/
def asofBackward (obs : List (Nat × ℚ)) (t : Nat) : Option ℚ :=
  ((obs.filter (fun p => p.1 ≤ t)).getLast?).map Prod.snd

/-- `PolygonDataMatrix.get_ohlcv` (matrix_polygon.py lines 71-113), the
point-in-time aligner, for one column: an empty observation series leaves the
all-NaN frame untouched; otherwise both frames are sorted by timestamp,
merge_asof joins backward with exact matches allowed, and the merged values are
reindexed onto the original time grid with NaN fill. Timestamps are modelled
after the tz-naive normalization; values are the observation floats. -/
def get_ohlcv (time_list : List Nat) (obs : List (Nat × ℚ)) : List (Option ℚ) :=
  if obs.isEmpty then List.replicate time_list.length none
  else
    let obss := sortObs obs
    let gs := sortNat time_list
    let merged := gs.map (fun t => (t, asofBackward obss t))
    time_list.map (fun t =>
      match merged.find? (fun q => q.1 == t) with
      | some q => q.2
      | none => none)

/-- The runtime environment snapshot of tools/set_runtime.py (lines 29-39). -/
structure RuntimeEnv where
  g_start_time : String
  g_end_time : String
  g_time_granularity : String
  g_use_cache : Bool
  g_matrix_cache_folder : String
  g_data_folder : String
  g_blow_cache : Bool
  g_debug_mode : Bool
  g_universe_num : Nat
deriving DecidableEq

/-- A positional or keyword argument of a cache-decorated call: a BaseMatrix, or
any other value represented by its deterministic `repr` string. -/
inductive Arg where
  | mx (m : BaseMatrix)
  | raw (s : String)
deriving DecidableEq

/-- Python `repr` of an argument. `BaseMatrix.__repr__` is the repr of the
underlying table (matrix.py lines 143-144), a function of its content. -/
def argRepr : Arg → String
  | .mx m => "Matrix(" ++ tableBytes m.underlying_df ++ ")"
  | .raw s => s

/-- The dataclass repr of the runtime snapshot, a function of its fields. -/
def envRepr (e : RuntimeEnv) : String :=
  String.intercalate "," [e.g_start_time, e.g_end_time, e.g_time_granularity,
    toString e.g_use_cache, e.g_matrix_cache_folder, e.g_data_folder,
    toString e.g_blow_cache, toString e.g_debug_mode, toString e.g_universe_num]

/-- Python dict assignment `kwargs[k] = v`: replace in place when the key
exists, else append. -/
def dictSet (l : List (String × Arg)) (k : String) (v : Arg) : List (String × Arg) :=
  if l.any (fun p => p.1 == k) then l.map (fun p => if p.1 == k then (k, v) else p)
  else l ++ [(k, v)]

/-- Insertion into a keyword-argument list sorted by key (Python
`sorted(kwargs.items())`). -/
def insertByKey (p : String × Arg) : List (String × Arg) → List (String × Arg)
  | [] => [p]
  | q :: rest => if p.1 < q.1 then p :: q :: rest else q :: insertByKey p rest

/-- Sorting of keyword arguments by key. -/
def sortKwargs (l : List (String × Arg)) : List (String × Arg) := l.foldr insertByKey []

/-- Rendering of a keyword-argument list, the model of
`str(sorted(kwargs.items()))`. -/
def kwargsRepr (l : List (String × Arg)) : String :=
  String.intercalate ";" (l.map (fun p => p.1 ++ "=" ++ argRepr p.2))

/-- The signatures of every Matrix among the positional then keyword arguments,
in call order (set_runtime.py lines 78-84). -/
def matrixSigs (args : List Arg) (kwargs : List (String × Arg)) : List String :=
  (args.filterMap (fun a => match a with | .mx m => some m.update_signature | _ => none)) ++
  (kwargs.filterMap (fun p => match p.2 with | .mx m => some m.update_signature | _ => none))

/-- The call fingerprint of `load_store_from_cache.wrapper` (set_runtime.py
lines 86-101): sha256 of `'_'.join([name, start, end, granularity, str(args),
str(sorted(kwargs))])` concatenated with the joined Matrix signatures, where
`kwargs` already carries the injected `runtime_vars` entry. -/
def fingerprintOf (fname : String) (env : RuntimeEnv) (args : List Arg)
    (kwargs : List (String × Arg)) : String :=
  let kwargsFull := dictSet kwargs "runtime_vars" (Arg.raw (envRepr env))
  let argsStr := "(" ++ String.intercalate "," (args.map argRepr) ++ ")"
  let kwargsStr := kwargsRepr (sortKwargs kwargsFull)
  let uniqueStr := String.intercalate "_"
    [fname, env.g_start_time, env.g_end_time, env.g_time_granularity, argsStr, kwargsStr]
  sha256Hex (uniqueStr ++ String.intercalate "_" (matrixSigs args kwargsFull))

/-- A persisted cache entry: a pickled matrix that restores cleanly, or a
corrupt file whose unpickling raises. -/
inductive CacheEntry where
  | valid (m : BaseMatrix)
  | corrupt
deriving DecidableEq

/-- The local file system visible to the decorator: the cache files, plus the
set of paths on which the external file layer fails a write (modelling OS or
pickling errors while persisting). -/
structure FS where
  files : List (String × CacheEntry)
  badWrite : List String
deriving DecidableEq

/-- File lookup by path. -/
def FS.lookup (fs : FS) (p : String) : Option CacheEntry :=
  (fs.files.find? (fun q => q.1 == p)).map (fun q => q.2)

/-- File write (overwrites any stale entry at the path). -/
def FS.store (fs : FS) (p : String) (e : CacheEntry) : FS :=
  { fs with files := (p, e) :: fs.files.filter (fun q => q.1 != p) }

/-- The cache layer's failure: the unpickling or pickling error that a corrupt
read or a failed write raises out of the decorator (the spec's
SerializationError class). -/
inductive CacheError where
  | serializationError
deriving DecidableEq

/-- The observable outcome of one call of the wrapped function: the returned or
raised value, the file system afterwards, and how many times `f` ran (the call
counter of the spec's testable property). -/
structure CallOutcome where
  result : Except CacheError BaseMatrix
  fs : FS
  fCalls : Nat

/-- The cache file path `cache_folder/funcname_fingerprint.pkl`
(set_runtime.py lines 103-110). -/
def cachePath (env : RuntimeEnv) (fname fp : String) : String :=
  env.g_matrix_cache_folder ++ "/" ++ fname ++ "_" ++ fp ++ ".pkl"

/-- `load_store_from_cache.wrapper` (set_runtime.py lines 59-134): snapshot the
runtime globals, inject them as the `runtime_vars` keyword, fingerprint the
call, and, when caching is on: read and return an existing entry unless the
blow-cache flag is set (a corrupt entry raises out, with no fallback run of
`f`), else run `f` and persist its result (a failed write raises out). With
caching off, `f` simply runs. -/
def wrapper (f : List Arg → List (String × Arg) → RuntimeEnv → BaseMatrix)
    (fname : String) (env : RuntimeEnv) (args : List Arg)
    (kwargs : List (String × Arg)) (fs : FS) : CallOutcome :=
  let kwargsFull := dictSet kwargs "runtime_vars" (Arg.raw (envRepr env))
  let fp := fingerprintOf fname env args kwargs
  if env.g_use_cache then
    let path := cachePath env fname fp
    match (if !env.g_blow_cache then fs.lookup path else none) with
    | some (.valid m) => ⟨.ok m, fs, 0⟩
    | some .corrupt => ⟨.error .serializationError, fs, 0⟩
    | none =>
        let ret := f args kwargsFull env
        if path ∈ fs.badWrite then ⟨.error .serializationError, fs, 1⟩
        else ⟨.ok ret, fs.store path (.valid ret), 1⟩
  else ⟨.ok (f args kwargsFull env), fs, 1⟩

/-- The delegated member resolved by `BaseMatrix.__getattr__` for a callable
attribute of the underlying table: its name, whether `inspect.signature` finds
an `inplace` parameter, and whether a signature is found at all (matrix.py
lines 76-95). -/
structure DelegatedMethod where
  name : String
  hasInplaceParam : Bool
  sigFound : Bool
deriving DecidableEq

/-- The matrix wrapped around a delegated call's raw result: Python assigns the
result — possibly `None` for a mutating engine call that slipped past the
heuristic — straight into `bm.underlying_df` of a freshly constructed
BaseMatrix, so the table slot is optional here. -/
structure DelegatedMatrix where
  matrix_type : String
  universeIds : List String
  start_time : String
  end_time : String
  time_granularity : String
  matrix_cache_folder : String
  time_list : List Nat
  underlying_df : Option Table
  unique_str : String
deriving DecidableEq

/-- What a delegated callable invocation returns to the caller. -/
inductive GetattrResult where
  | mutatedSelf (m : BaseMatrix)
  | wrapped (m : DelegatedMatrix)
deriving DecidableEq

/-- The wrapper closure of `BaseMatrix.__getattr__` around a delegated callable
(matrix.py lines 76-95): when the method declares an `inplace` parameter and the
call passed `inplace=True`, or when it has no `inplace` parameter, returned
`None`, and is the `update` special case, the receiver itself is returned;
otherwise the raw result is wrapped into a new BaseMatrix built from the
receiver's metadata. `kwargsInplace` is `kwargs.get('inplace', False)`;
`result` is the callable's return value, `none` modelling Python `None`. -/
def getattrCall (self : BaseMatrix) (meth : DelegatedMethod) (kwargsInplace : Bool)
    (result : Option Table) : GetattrResult :=
  if meth.sigFound && meth.hasInplaceParam && kwargsInplace then
    .mutatedSelf self
  else if meth.sigFound && !meth.hasInplaceParam && result.isNone && (meth.name == "update") then
    .mutatedSelf self
  else
    let base := BaseMatrix.init self.universeIds self.start_time self.end_time
        self.time_granularity self.matrix_cache_folder self.time_list
    .wrapped ⟨base.matrix_type, base.universeIds, base.start_time, base.end_time,
      base.time_granularity, base.matrix_cache_folder, base.time_list, result,
      base.unique_str⟩

/-! Helper lemmas shared by the claim theorems. -/

lemma noInfCell_replaceInfCell (c : Cell) : noInfCell (replaceInfCell c) = true := by
  cases c <;> rfl

lemma noInfTable_replaceInfTable (t : Table) : noInfTable (replaceInfTable t) = true := by
  simp only [noInfTable, replaceInfTable, List.all_map, List.all_eq_true, Function.comp]
  intro row _ c _
  exact noInfCell_replaceInfCell c

lemma noInfTable_applyOp (self : BaseMatrix) (other : Operand) (op : Cell → Cell → Cell) :
    noInfTable (applyOp self other op).underlying_df = true :=
  noInfTable_replaceInfTable _

lemma fillnaCell_idem (c : Cell) : fillnaCell (fillnaCell c) = fillnaCell c := by
  cases c <;> simp [fillnaCell]

lemma mapTable_fillna_idem (t : Table) :
    mapTable fillnaCell (mapTable fillnaCell t) = mapTable fillnaCell t := by
  unfold mapTable
  rw [List.map_map]
  refine List.map_congr_left (fun row _ => ?_)
  show List.map fillnaCell (List.map fillnaCell row) = _
  rw [List.map_map]
  exact List.map_congr_left (fun c _ => fillnaCell_idem c)

lemma tableShape_mapTable (f : Cell → Cell) (t : Table) :
    tableShape (mapTable f t) = tableShape t := by
  cases t with
  | nil => rfl
  | cons r rs => simp [tableShape, mapTable]

/-- C3. Signature purity and stability: the signature digest recomputed by
`update_signature` is a pure function of the matrix kind (forced to
'BaseMatrix' by the constructor), the start and end bounds, and the current
byte content of the table. First conjunct: two independently constructed
matrices with the same bounds and the same table content have the same
signature, whatever their universe, granularity, cache folder or time grid.
Second conjunct: the digest is recomputed from the current table on every call
— an earlier table replacement leaves no trace. -/
theorem update_signature_pure_and_recomputed
    (u1 u2 : List String) (s e g1 g2 c1 c2 : String) (tl1 tl2 : List Nat)
    (df df1 df2 : Table) (m : BaseMatrix) :
    ((BaseMatrix.init u1 s e g1 c1 tl1).setDf df).update_signature
      = ((BaseMatrix.init u2 s e g2 c2 tl2).setDf df).update_signature
    ∧ ((m.setDf df1).setDf df2).update_signature = (m.setDf df2).update_signature :=
  ⟨rfl, rfl⟩

/-- C8. Cache round-trip: pickling a BaseMatrix (`__getstate__`, a copy of the
attribute dictionary) and unpickling it (`__setstate__`, restoring every
attribute) yields a matrix whose recomputed signature equals the original's. -/
theorem pickle_roundtrip_preserves_signature (m : BaseMatrix) :
    (BaseMatrix.setstate m.getstate).update_signature = m.update_signature := rfl

/-- C9. Universal infinity collapse: `_apply_op` — the route taken by `+`, `-`,
`*`, `//`, `%`, `**` and the six elementwise comparisons, for Matrix, table,
broadcast-vector and scalar operands alike — replaces every ±infinity of the
raw elementwise result with NaN before wrapping it, so the wrapped table never
holds an infinite cell, whatever the operator. -/
theorem applyOp_collapses_infinities (self : BaseMatrix) (other : Operand)
    (op : Cell → Cell → Cell) :
    noInfTable (applyOp self other op).underlying_df = true :=
  noInfTable_applyOp self other op

/-- C10. Reflected operators keep the receiver on the left: `__rsub__`,
`__rfloordiv__`, `__rmod__` and `__rpow__` run the very same
`_apply_op(other, op)` as their forward counterparts, and `__rtruediv__`
likewise divides the receiver's table by the operand (through `_apply_op` with
`operator.truediv`), so `s - M`, `s / M`, `s // M`, `s % M` and `s ** M` all
compute with `M`'s table as the left operand instead of swapping. -/
theorem reflected_ops_keep_receiver_left (m : BaseMatrix) (o : Operand) :
    m.rsub o = m.sub o ∧ m.rtruediv o = applyOp m o cellDiv ∧
    m.rfloordiv o = m.floordiv o ∧ m.rmod o = m.mod o ∧ m.rpow o = m.pow o :=
  ⟨rfl, rfl, rfl, rfl, rfl⟩

/-- One-cell matrix holding the finite value 1, used to exhibit the scalar
division path. -/
def divDemoMatrix : BaseMatrix :=
  (BaseMatrix.init ["I:SPX"] "2024-01-01" "2024-01-02" "1d" "cache" [0]).setDf [[Cell.val 1]]

/-- C4 counterexample: dividing a matrix holding 1 by the scalar 0 takes the
`isinstance(other, (int, float))` branch of `__truediv__`, which performs no
infinity collapse — the result table contains an infinite cell, contradicting
the claim that a division result never contains an infinite value. -/
theorem truediv_scalar_zero_keeps_infinity :
    (BaseMatrix.truediv divDemoMatrix (Operand.scalar (Cell.val 0))).map
      (fun b => noInfTable b.underlying_df) = Except.ok false := rfl

/-- C4 amended: for every non-scalar divisor — Matrix, raw table, or vector —
`__truediv__` collapses every ±infinity of the quotient to NaN, and a Matrix
divisor's missing cells are treated as zero (pre-filling the divisor's NaNs
with 0 does not change the result); a scalar `int`/`float` divisor, however,
bypasses the collapse, so dividing by scalar zero yields infinity. -/
theorem truediv_nonscalar_collapses_infinities (self : BaseMatrix) (other : Operand)
    (r o : BaseMatrix) (hns : other.isScalarArg = false)
    (h : BaseMatrix.truediv self other = .ok r) :
    noInfTable r.underlying_df = true ∧
    BaseMatrix.truediv self (Operand.matrix (o.setDf (mapTable fillnaCell o.underlying_df)))
      = BaseMatrix.truediv self (Operand.matrix o) := by
  constructor
  · cases other with
    | matrix om =>
        by_cases hs : tableShape self.underlying_df = tableShape om.underlying_df
        · simp only [BaseMatrix.truediv, hs, ne_eq, not_true_eq_false, if_false,
            ite_not, if_true, Except.ok.injEq] at h
          rw [← h]
          exact noInfTable_replaceInfTable _
        · simp [BaseMatrix.truediv, hs] at h
    | table t =>
        by_cases hs : tableShape self.underlying_df = tableShape t
        · simp only [BaseMatrix.truediv, hs, ne_eq, not_true_eq_false, if_false,
            ite_not, if_true, Except.ok.injEq] at h
          rw [← h]
          exact noInfTable_replaceInfTable _
        · simp [BaseMatrix.truediv, hs] at h
    | vector v =>
        simp only [BaseMatrix.truediv, Except.ok.injEq] at h
        rw [← h]
        exact noInfTable_applyOp self (.vector v) cellDiv
    | scalar c => simp [Operand.isScalarArg] at hns
  · simp only [BaseMatrix.truediv, BaseMatrix.setDf, tableShape_mapTable,
      mapTable_fillna_idem]

/-- C4 witness: the amended theorem applied to concrete one-cell matrices — a
Matrix divisor whose single cell is missing is treated as zero, the 1/0
quotient degenerates into an infinity that the Matrix branch collapses to NaN. -/
theorem truediv_nonscalar_collapses_infinities_witness :
    (Operand.matrix (divDemoMatrix.setDf [[Cell.nan]])).isScalarArg = false ∧
    BaseMatrix.truediv divDemoMatrix (Operand.matrix (divDemoMatrix.setDf [[Cell.nan]]))
      = .ok ((BaseMatrix.init ["I:SPX"] "2024-01-01" "2024-01-02" "1d" "cache" [0]).setDf
          [[Cell.nan]]) ∧
    noInfTable ((BaseMatrix.init ["I:SPX"] "2024-01-01" "2024-01-02" "1d" "cache" [0]).setDf
          [[Cell.nan]]).underlying_df = true :=
  ⟨rfl, rfl,
   (truediv_nonscalar_collapses_infinities divDemoMatrix
      (Operand.matrix (divDemoMatrix.setDf [[Cell.nan]]))
      ((BaseMatrix.init ["I:SPX"] "2024-01-01" "2024-01-02" "1d" "cache" [0]).setDf
          [[Cell.nan]])
      divDemoMatrix rfl rfl).1⟩

lemma FS.lookup_store (fs : FS) (p : String) (e : CacheEntry) :
    (fs.store p e).lookup p = some e := by
  unfold FS.lookup FS.store
  rw [List.find?_cons_of_pos _ (by simp)]
  rfl

/-- C2. Cache hit short-circuit. First conjunct: with caching enabled and the
blow-cache flag unset, when a cache file already exists under the computed
fingerprint and unpickles to `m`, the wrapped call returns `m`, leaves the file
system untouched, and never invokes `f` (call counter 0). Second conjunct:
fingerprint determinism — a second call with the identical runtime snapshot and
identical arguments recomputes the same fingerprint, so whenever the first call
returned a matrix `r`, the second call is such a hit: it returns the same `r`
without invoking `f`. -/
theorem cache_hit_short_circuits
    (f : List Arg → List (String × Arg) → RuntimeEnv → BaseMatrix)
    (fname : String) (env : RuntimeEnv) (args : List Arg) (kwargs : List (String × Arg))
    (fs : FS) (m r : BaseMatrix)
    (hc : env.g_use_cache = true) (hb : env.g_blow_cache = false) :
    (fs.lookup (cachePath env fname (fingerprintOf fname env args kwargs))
        = some (.valid m) →
      wrapper f fname env args kwargs fs = ⟨.ok m, fs, 0⟩)
    ∧ ((wrapper f fname env args kwargs fs).result = .ok r →
      wrapper f fname env args kwargs (wrapper f fname env args kwargs fs).fs
        = ⟨.ok r, (wrapper f fname env args kwargs fs).fs, 0⟩) := by
  constructor
  · intro hm
    simp [wrapper, hc, hb, hm]
  · intro hr
    cases hcase : fs.lookup (cachePath env fname (fingerprintOf fname env args kwargs)) with
    | some e =>
        cases e with
        | valid m0 =>
            simp only [wrapper, hc, hb, Bool.not_false, if_true, hcase] at hr ⊢
            simp only [Except.ok.injEq] at hr
            subst hr
            simp [hcase]
        | corrupt => simp [wrapper, hc, hb, hcase] at hr
    | none =>
        by_cases hbw : cachePath env fname (fingerprintOf fname env args kwargs) ∈ fs.badWrite
        · simp [wrapper, hc, hb, hcase, hbw] at hr
        · simp only [wrapper, hc, hb, Bool.not_false, if_true, hcase, hbw, if_neg,
            if_false] at hr ⊢
          simp only [Except.ok.injEq] at hr
          subst hr
          simp [FS.lookup_store]

/-- The small matrix used by the cache-layer witnesses. -/
def demoMatrix : BaseMatrix := BaseMatrix.init ["X"] "s" "e" "1d" "c" [0]

/-- A constant decorated function body for the cache-layer witnesses. -/
def demoF : List Arg → List (String × Arg) → RuntimeEnv → BaseMatrix :=
  fun _ _ _ => demoMatrix

/-- A runtime snapshot with caching on and the blow-cache flag off. -/
def demoEnv : RuntimeEnv := ⟨"s", "e", "1d", true, "c", "d", false, true, 0⟩

/-- The cache path the demo call fingerprints to. -/
def demoPath : String := cachePath demoEnv "f" (fingerprintOf "f" demoEnv [] [])

/-- An initially empty cache directory. -/
def demoFS : FS := ⟨[], []⟩

/-- C2 witness: on an empty cache the first demo call computes `demoMatrix` and
stores it; the theorem then yields that the identical second call returns the
same matrix with the call counter at zero. -/
theorem cache_hit_short_circuits_witness :
    demoEnv.g_use_cache = true ∧ demoEnv.g_blow_cache = false ∧
    (wrapper demoF "f" demoEnv [] [] demoFS).result = .ok demoMatrix ∧
    wrapper demoF "f" demoEnv [] [] (wrapper demoF "f" demoEnv [] [] demoFS).fs
      = ⟨.ok demoMatrix, (wrapper demoF "f" demoEnv [] [] demoFS).fs, 0⟩ :=
  ⟨rfl, rfl, rfl,
   (cache_hit_short_circuits demoF "f" demoEnv [] [] demoFS demoMatrix demoMatrix
      rfl rfl).2 rfl⟩

/-- C7. Corrupt-cache surfacing. First conjunct: with caching enabled and the
blow-cache flag unset, an existing cache file that fails to unpickle makes the
wrapped call raise the serialization failure, with `f` never invoked (call
counter 0) — no silent fallback to recomputation. Second conjunct: on a miss
whose persistence write fails, the failure likewise propagates to the caller. -/
theorem corrupt_cache_and_failed_write_surface
    (f : List Arg → List (String × Arg) → RuntimeEnv → BaseMatrix)
    (fname : String) (env : RuntimeEnv) (args : List Arg) (kwargs : List (String × Arg))
    (fs : FS) (hc : env.g_use_cache = true) (hb : env.g_blow_cache = false) :
    (fs.lookup (cachePath env fname (fingerprintOf fname env args kwargs)) = some .corrupt →
      wrapper f fname env args kwargs fs = ⟨.error .serializationError, fs, 0⟩)
    ∧ (fs.lookup (cachePath env fname (fingerprintOf fname env args kwargs)) = none →
      cachePath env fname (fingerprintOf fname env args kwargs) ∈ fs.badWrite →
      wrapper f fname env args kwargs fs = ⟨.error .serializationError, fs, 1⟩) := by
  constructor
  · intro hm
    simp [wrapper, hc, hb, hm]
  · intro hm hbw
    simp [wrapper, hc, hb, hm, hbw]

/-- A cache directory holding a corrupt entry at the demo call's path. -/
def demoCorruptFS : FS := ⟨[(demoPath, CacheEntry.corrupt)], []⟩

/-- A cache directory where writing the demo call's path fails. -/
def demoBadWriteFS : FS := ⟨[], [demoPath]⟩

/-- C7 witness: the corrupt entry makes the demo call raise with `f` never run,
and the unwritable path makes the demo call raise after computing. -/
theorem corrupt_cache_and_failed_write_surface_witness :
    demoEnv.g_use_cache = true ∧
    demoCorruptFS.lookup demoPath = some CacheEntry.corrupt ∧
    wrapper demoF "f" demoEnv [] [] demoCorruptFS
      = ⟨.error .serializationError, demoCorruptFS, 0⟩ ∧
    wrapper demoF "f" demoEnv [] [] demoBadWriteFS
      = ⟨.error .serializationError, demoBadWriteFS, 1⟩ :=
  ⟨rfl, rfl,
   (corrupt_cache_and_failed_write_surface demoF "f" demoEnv [] [] demoCorruptFS
      rfl rfl).1 rfl,
   (corrupt_cache_and_failed_write_surface demoF "f" demoEnv [] [] demoBadWriteFS
      rfl rfl).2 rfl (by show demoPath ∈ [demoPath]; exact List.mem_cons_self _ _)⟩

/-- C5 counterexample: constructing a PolygonDataMatrix with start day 2 and end
day 1 — an inverted time range — succeeds (no error of any kind is raised at
construction), contradicting the claim that `start ≥ end` fails with
ConfigError at object-creation time. The date range is simply empty. -/
theorem polygon_inverted_range_constructs :
    ∃ m, PolygonDataMatrix.init 2 1 "1d" "cache" "data" = .ok m ∧ m.time_list = [] :=
  ⟨_, rfl, rfl⟩

/-- C5 amended: construction-time validation covers only the granularity — an
unrecognized granularity raises ValueError (the code has no ConfigError class)
from `_generate_time_list`, inside the constructor; a recognized granularity
always constructs, with no check of the time bounds: `start > end` silently
yields an empty time grid (and `start = end` a single-point grid). Every
successful construction yields an all-missing table whose rows are the time
grid and whose columns are the universe. -/
theorem polygon_construction_validation (s e : Nat) (g c d : String) :
    (granStep g = none →
      PolygonDataMatrix.init s e g c d
        = .error (.valueError ("Unsupported time_granularity: " ++ g)))
    ∧ (granStep g ≠ none → ∃ m, PolygonDataMatrix.init s e g c d = .ok m)
    ∧ (∀ m, PolygonDataMatrix.init s e g c d = .ok m →
        m.universeIds = ["I:SPX"] ∧
        m.underlying_df = allNanTable m.time_list.length m.universeIds.length ∧
        (e < s → m.time_list = [])) := by
  refine ⟨?_, ?_, ?_⟩
  · intro hg
    simp [PolygonDataMatrix.init, generate_time_list, hg]
  · intro hg
    cases hstep : granStep g with
    | none => exact absurd hstep hg
    | some st =>
        refine ⟨BaseMatrix.init ["I:SPX"] (toString s) (toString e) g c
          (dateRange (s * 1440) (e * 1440) st), ?_⟩
        unfold PolygonDataMatrix.init generate_time_list
        rw [hstep]
        rfl
  · intro m hm
    cases hstep : granStep g with
    | none => simp [PolygonDataMatrix.init, generate_time_list, hstep] at hm
    | some st =>
        simp only [PolygonDataMatrix.init, generate_time_list, hstep, Except.bind,
          bind, Except.ok.injEq, pure, Except.pure] at hm
        subst hm
        refine ⟨rfl, rfl, ?_⟩
        intro hlt
        show dateRange (s * 1440) (e * 1440) st = []
        unfold dateRange
        rw [if_pos (by omega)]

/-- C5 amended witness: the unsupported granularity 2h raises at construction;
the supported 1d granularity constructs over an ordinary range. -/
theorem polygon_construction_validation_witness :
    (granStep "2h" = none ∧
      PolygonDataMatrix.init 1 3 "2h" "cache" "data"
        = .error (.valueError ("Unsupported time_granularity: " ++ "2h"))) ∧
    (granStep "1d" ≠ none ∧ ∃ m, PolygonDataMatrix.init 1 3 "1d" "cache" "data" = .ok m) :=
  ⟨⟨rfl, (polygon_construction_validation 1 3 "2h" "cache" "data").1 rfl⟩,
   ⟨by decide,
    (polygon_construction_validation 1 3 "1d" "cache" "data").2.1 (by decide)⟩⟩

/-- C6. Delegation wrapping: a delegated callable of the underlying table
returns the receiver itself exactly when the call is an in-place update as the
source detects it — the method declares an `inplace` parameter and the call
passed `inplace=True`, or the method is the `update` special case (no `inplace`
parameter, `None` result); every other call wraps the raw result into a fresh
matrix sharing the receiver's kind, universe, start, end, granularity and time
grid (every matrix built by the constructor has kind 'BaseMatrix', which is the
hypothesis). -/
theorem getattr_delegation (self : BaseMatrix) (meth : DelegatedMethod)
    (kwargsInplace : Bool) (result : Option Table)
    (hk : self.matrix_type = "BaseMatrix") :
    ((getattrCall self meth kwargsInplace result = .mutatedSelf self) ↔
      (meth.sigFound = true ∧
        ((meth.hasInplaceParam = true ∧ kwargsInplace = true) ∨
         (meth.hasInplaceParam = false ∧ result = none ∧ meth.name = "update"))))
    ∧ (∀ bm, getattrCall self meth kwargsInplace result = .wrapped bm →
        bm.matrix_type = self.matrix_type ∧ bm.universeIds = self.universeIds ∧
        bm.start_time = self.start_time ∧ bm.end_time = self.end_time ∧
        bm.time_granularity = self.time_granularity ∧ bm.time_list = self.time_list ∧
        bm.underlying_df = result) := by
  obtain ⟨name, hip, sf⟩ := meth
  by_cases hn : name = "update" <;>
    cases sf <;> cases hip <;> cases kwargsInplace <;> cases result <;>
    simp_all [getattrCall, BaseMatrix.init, hk]

/-- C6 witness: a call that passed `inplace=True` to a method declaring the
parameter returns the receiver, per the theorem at a concrete matrix. -/
theorem getattr_delegation_witness :
    demoMatrix.matrix_type = "BaseMatrix" ∧
    (((getattrCall demoMatrix ⟨"fillna", true, true⟩ true none
        = .mutatedSelf demoMatrix) ↔
      ((true : Bool) = true ∧
        (((true : Bool) = true ∧ (true : Bool) = true) ∨
         ((true : Bool) = false ∧ (none : Option Table) = none ∧ "fillna" = "update"))))
    ∧ (∀ bm, getattrCall demoMatrix ⟨"fillna", true, true⟩ true none = .wrapped bm →
        bm.matrix_type = demoMatrix.matrix_type ∧
        bm.universeIds = demoMatrix.universeIds ∧
        bm.start_time = demoMatrix.start_time ∧ bm.end_time = demoMatrix.end_time ∧
        bm.time_granularity = demoMatrix.time_granularity ∧
        bm.time_list = demoMatrix.time_list ∧
        bm.underlying_df = (none : Option Table))) :=
  ⟨rfl, getattr_delegation demoMatrix ⟨"fillna", true, true⟩ true none rfl⟩

/-! Lemmas about the aligner's sorting and backward as-of matching. -/

lemma mem_sortedInsertObs {p q : Nat × ℚ} {l : List (Nat × ℚ)} :
    q ∈ sortedInsertObs p l ↔ q = p ∨ q ∈ l := by
  induction l with
  | nil => simp [sortedInsertObs]
  | cons a rest ih =>
      by_cases h : p.1 < a.1
      · simp [sortedInsertObs, h, List.mem_cons]
      · simp only [sortedInsertObs, h, if_false, List.mem_cons, ih]
        tauto

lemma pairwise_sortedInsertObs {p : Nat × ℚ} {l : List (Nat × ℚ)}
    (hl : l.Pairwise (fun a b => a.1 ≤ b.1)) :
    (sortedInsertObs p l).Pairwise (fun a b => a.1 ≤ b.1) := by
  induction l with
  | nil => simp [sortedInsertObs]
  | cons a rest ih =>
      rcases List.pairwise_cons.mp hl with ⟨ha, hrest⟩
      by_cases h : p.1 < a.1
      · rw [sortedInsertObs, if_pos h]
        refine List.pairwise_cons.mpr ⟨?_, hl⟩
        intro b hb
        rcases List.mem_cons.mp hb with rfl | hb'
        · exact le_of_lt h
        · exact le_trans (le_of_lt h) (ha b hb')
      · rw [sortedInsertObs, if_neg h]
        refine List.pairwise_cons.mpr ⟨?_, ih hrest⟩
        intro b hb
        rcases mem_sortedInsertObs.mp hb with rfl | hb'
        · exact Nat.le_of_not_lt h
        · exact ha b hb'

lemma sorted_sortObs (l : List (Nat × ℚ)) :
    (sortObs l).Pairwise (fun a b => a.1 ≤ b.1) := by
  induction l with
  | nil => simp [sortObs]
  | cons a rest ih => exact pairwise_sortedInsertObs ih

lemma mem_sortObs {q : Nat × ℚ} {l : List (Nat × ℚ)} : q ∈ sortObs l ↔ q ∈ l := by
  induction l with
  | nil => simp [sortObs]
  | cons a rest ih =>
      show q ∈ sortedInsertObs a (sortObs rest) ↔ _
      rw [mem_sortedInsertObs, ih, List.mem_cons]

lemma sortNat_eq_of_sorted : ∀ {l : List Nat}, l.Pairwise (· < ·) → sortNat l = l := by
  intro l hl
  induction l with
  | nil => rfl
  | cons a rest ih =>
      rcases List.pairwise_cons.mp hl with ⟨ha, hrest⟩
      show sortedInsertNat a (sortNat rest) = a :: rest
      rw [ih hrest]
      cases rest with
      | nil => rfl
      | cons b rest2 =>
          have hb : a < b := ha b (List.mem_cons_self b rest2)
          rw [sortedInsertNat, if_pos hb]

lemma pairwise_le_getLast? : ∀ {l : List (Nat × ℚ)},
    l.Pairwise (fun a b => a.1 ≤ b.1) → ∀ {x : Nat × ℚ}, l.getLast? = some x →
    ∀ p ∈ l, p.1 ≤ x.1 := by
  intro l
  induction l with
  | nil => intro _ x hx; simp at hx
  | cons a rest ih =>
      intro hl x hx p hp
      rcases List.pairwise_cons.mp hl with ⟨ha, hrest⟩
      cases rest with
      | nil =>
          have hax : a = x := by simpa using hx
          rcases List.mem_cons.mp hp with rfl | hp'
          · exact hax ▸ le_refl _
          · simp at hp'
      | cons b rest2 =>
          rw [List.getLast?_cons_cons] at hx
          rcases List.mem_cons.mp hp with rfl | hp'
          · exact ha x (List.mem_of_mem_getLast? hx)
          · exact ih hrest hx p hp'

lemma asofBackward_spec (obs : List (Nat × ℚ)) (t : Nat)
    (hs : obs.Pairwise (fun a b => a.1 ≤ b.1)) :
    (asofBackward obs t = none ↔ ∀ p ∈ obs, t < p.1) ∧
    (∀ v, asofBackward obs t = some v →
      ∃ ts, (ts, v) ∈ obs ∧ ts ≤ t ∧ ∀ p ∈ obs, p.1 ≤ t → p.1 ≤ ts) := by
  constructor
  · unfold asofBackward
    constructor
    · intro h p hp
      by_contra hle
      push_neg at hle
      have hmem : p ∈ obs.filter (fun p => p.1 ≤ t) :=
        List.mem_filter.mpr ⟨hp, by simpa using hle⟩
      cases hfl : (obs.filter (fun p => p.1 ≤ t)).getLast? with
      | some q => simp [hfl] at h
      | none =>
          rw [List.getLast?_eq_none_iff.mp hfl] at hmem
          simp at hmem
    · intro h
      have hnil : obs.filter (fun p => p.1 ≤ t) = [] :=
        List.filter_eq_nil_iff.mpr (fun p hp => by simpa using Nat.not_le.mpr (h p hp))
      simp [hnil]
  · intro v hv
    unfold asofBackward at hv
    cases hfl : (obs.filter (fun p => p.1 ≤ t)).getLast? with
    | none => simp [hfl] at hv
    | some q =>
        rw [hfl] at hv
        simp only [Option.map_some', Option.some.injEq] at hv
        have hqmem : q ∈ obs.filter (fun p => p.1 ≤ t) := List.mem_of_mem_getLast? hfl
        rcases List.mem_filter.mp hqmem with ⟨hqobs, hqle⟩
        refine ⟨q.1, ?_, by simpa using hqle, ?_⟩
        · rw [← hv]
          simpa using hqobs
        · intro p hp hple
          have hpmem : p ∈ obs.filter (fun p => p.1 ≤ t) :=
            List.mem_filter.mpr ⟨hp, by simpa using hple⟩
          exact pairwise_le_getLast?
            (hs.sublist (List.filter_sublist obs)) hfl p hpmem

lemma mem_zip_map_self {α β : Type} (l : List α) (fn : α → β) {t : α} {o : β}
    (h : (t, o) ∈ l.zip (l.map fn)) : o = fn t := by
  induction l with
  | nil => simp at h
  | cons a rest ih =>
      rw [List.map_cons, List.zip_cons_cons] at h
      rcases List.mem_cons.mp h with heq | h'
      · rcases Prod.mk.injEq .. ▸ heq with ⟨rfl, rfl⟩
        rfl
      · exact ih h'

lemma find?_graph (gs : List Nat) (g : Nat → Option ℚ) (t : Nat) (ht : t ∈ gs) :
    ∃ q, (gs.map (fun s => (s, g s))).find? (fun q => q.1 == t) = some q ∧ q.2 = g t := by
  induction gs with
  | nil => simp at ht
  | cons a rest ih =>
      by_cases h : a = t
      · subst h
        exact ⟨(a, g a), by rw [List.map_cons]; exact List.find?_cons_of_pos _ (by simp), rfl⟩
      · have ht' : t ∈ rest := by
          rcases List.mem_cons.mp ht with h' | h'
          · exact absurd h'.symm h
          · exact h'
        rcases ih ht' with ⟨q, hq, hvq⟩
        refine ⟨q, ?_, hvq⟩
        rw [List.map_cons, List.find?_cons_of_neg _ (by simp [h]), hq]

/-- C1. Point-in-time alignment of `get_ohlcv`: over a strictly ascending time
grid, the output is one value per grid point; an empty observation series
yields an all-missing output over the full grid; and at each grid timestamp `t`
the output is missing exactly when every observation lies strictly after `t`,
while a present value is the value of an observation at some timestamp `ts ≤ t`
that no other observation at or before `t` exceeds — so the value at `t` is
determined by the observations at or before `t` alone, and no observation with
timestamp strictly greater than `t` ever influences it. -/
theorem get_ohlcv_point_in_time (grid : List Nat) (obs : List (Nat × ℚ))
    (hg : grid.Pairwise (· < ·)) :
    (get_ohlcv grid obs).length = grid.length ∧
    get_ohlcv grid [] = List.replicate grid.length none ∧
    (∀ t o, (t, o) ∈ grid.zip (get_ohlcv grid obs) →
      ((o = none ↔ ∀ p ∈ obs, t < p.1) ∧
       (∀ v, o = some v →
         ∃ ts, (ts, v) ∈ obs ∧ ts ≤ t ∧ ∀ p ∈ obs, p.1 ≤ t → p.1 ≤ ts))) := by
  refine ⟨?_, by simp [get_ohlcv], ?_⟩
  · by_cases he : obs.isEmpty <;> simp [get_ohlcv, he]
  · intro t o hmem
    by_cases he : obs.isEmpty
    · have hobs : obs = [] := List.isEmpty_iff.mp he
      subst hobs
      have hnil : get_ohlcv grid [] = List.replicate grid.length none := by
        simp [get_ohlcv]
      rw [hnil] at hmem
      have honone : o = none :=
        List.eq_of_mem_replicate (List.of_mem_zip hmem).2
      subst honone
      exact ⟨by simp, by simp⟩
    · have hne : obs.isEmpty = false := Bool.not_eq_true _ ▸ he
      rw [get_ohlcv, if_neg (by simp [hne])] at hmem
      have ht : t ∈ grid := (List.of_mem_zip hmem).1
      have hfn := mem_zip_map_self grid _ hmem
      rw [sortNat_eq_of_sorted hg] at hfn
      rcases find?_graph grid (fun s => asofBackward (sortObs obs) s) t ht with ⟨q, hq, hvq⟩
      rw [hq] at hfn
      simp only at hfn
      rw [hvq] at hfn
      subst hfn
      obtain ⟨hnone, hsome⟩ := asofBackward_spec (sortObs obs) t (sorted_sortObs obs)
      constructor
      · rw [hnone]
        constructor
        · intro h p hp
          exact h p (mem_sortObs.mpr hp)
        · intro h p hp
          exact h p (mem_sortObs.mp hp)
      · intro v hv
        rcases hsome v hv with ⟨ts, hmem', hle, hmax⟩
        exact ⟨ts, mem_sortObs.mp hmem', hle,
          fun p hp hple => hmax p (mem_sortObs.mpr hp) hple⟩

/-- C1 witness: the spec's own test vector — grid `[0, 2, 4]`, single
observation `(2, 5)` — instantiates the theorem: the aligned output is
`[missing, 5, 5]` and satisfies the stated characterization at every grid
point. -/
theorem get_ohlcv_point_in_time_witness :
    List.Pairwise (· < ·) [0, 2, 4] ∧
    get_ohlcv [0, 2, 4] [(2, (5 : ℚ))] = [none, some 5, some 5] ∧
    ((get_ohlcv [0, 2, 4] [(2, (5 : ℚ))]).length = ([0, 2, 4] : List Nat).length ∧
     get_ohlcv [0, 2, 4] ([] : List (Nat × ℚ))
       = List.replicate ([0, 2, 4] : List Nat).length none ∧
     (∀ t o, (t, o) ∈ ([0, 2, 4] : List Nat).zip (get_ohlcv [0, 2, 4] [(2, (5 : ℚ))]) →
       ((o = none ↔ ∀ p ∈ [(2, (5 : ℚ))], t < p.1) ∧
        (∀ v, o = some v →
          ∃ ts, (ts, v) ∈ [(2, (5 : ℚ))] ∧ ts ≤ t ∧
            ∀ p ∈ [(2, (5 : ℚ))], p.1 ≤ t → p.1 ≤ ts)))) :=
  ⟨by decide, rfl, get_ohlcv_point_in_time [0, 2, 4] [(2, 5)] (by decide)⟩

end OptionSignals
